import Mathlib

/-!
Shallow embedding of the harvest-cache-score pipeline of
`src/vivatech_analyzer.py` (classes `CacheManager`, `ClaudeAnalyzer`,
`AsyncWebScraper`, `VivaTechAnalyzerV2`), together with theorems settling
the specification claims about it.

Modelling conventions:
- Python strings are Lean `String`s; `str.lower`, `str.count`, `in`
  (substring membership), `str.strip` and slicing are modelled explicitly
  below on the character list.
- Python dicts are association lists in insertion order with first-match
  lookup and replace-in-place-or-append assignment, matching dict
  semantics for the unique-key dicts the program builds.
- Wall-clock time is an abstract `Nat` tick passed explicitly where the
  source calls `datetime.now()`.
- External effects (the md5 digest, the HTTP session, the BeautifulSoup
  text extraction) are abstracted as explicit function parameters; the
  logic of the repository around them is embedded faithfully.
-/

namespace Viva

/-- Model of Python `str.lower` (ASCII case folding of each character). -/
def lowerStr (s : String) : String := ⟨s.data.map Char.toLower⟩

/-- Model of Python `str.startswith` on the char list. -/
def startsWithStr (s pre : String) : Bool := pre.data.isPrefixOf s.data

/-- Model of the Python slice `s[:n]` (by code point). -/
def takeStr (n : Nat) (s : String) : String := ⟨s.data.take n⟩

/-- Python `min(a, b)` on numbers: the first argument when they compare
equal. -/
def pyMin (a b : ℚ) : ℚ := if a ≤ b then a else b

/-- Python `max(a, b)` on numbers: the first argument when they compare
equal. -/
def pyMax (a b : ℚ) : ℚ := if b ≤ a then a else b

/-- Scan for `countSub`: counts non-overlapping occurrences of a nonempty
pattern, scanning left to right and skipping past each match, exactly as
Python `str.count` does. The fuel argument only makes the recursion
structural; every scan step consumes at least one character, so a fuel
equal to the text length never runs out. -/
def countSubFuel (pat : List Char) : Nat → List Char → Nat
  | 0, _ => 0
  | _, [] => 0
  | fuel + 1, c :: rest =>
    if pat.isPrefixOf (c :: rest) then
      1 + countSubFuel pat fuel (rest.drop (pat.length - 1))
    else
      countSubFuel pat fuel rest

/-- Model of Python `str.count`: the number of non-overlapping occurrences
of `pat` in `s` (for the empty pattern Python returns `len(s) + 1`). -/
def countSub (pat s : String) : Nat :=
  if pat.data = [] then s.data.length + 1
  else countSubFuel pat.data s.data.length s.data

/-- Model of the Python substring membership test `pat in s`. -/
def strContains (s pat : String) : Bool :=
  s.data.tails.any (fun t => pat.data.isPrefixOf t)

/-- The per-axis keyword lists of `ClaudeAnalyzer._fallback_analysis`
(`keywords_mapping`), in source order. -/
def keywordsMapping : List (String × List String) :=
  [("numerisation",
    ["ocr", "document", "scan", "digitization", "digitisation", "pdf",
     "paper", "archive", "capture", "recognition"]),
   ("extraction",
    ["data extraction", "data mining", "analytics", "intelligence", "etl",
     "data processing", "information extraction", "nlp", "text mining"]),
   ("certification",
    ["certification", "trust", "blockchain", "security", "authentication",
     "verification", "compliance", "audit", "identity"]),
   ("mise_disposition",
    ["dashboard", "portal", "api", "collaboration", "sharing", "access",
     "interface", "platform", "workspace"])]

/-- The four axis names, in the order the validation loop of
`analyze_startup_relevance` iterates them (same as `keywordsMapping`). -/
def axisNames : List String :=
  ["numerisation", "extraction", "certification", "mise_disposition"]

/-- The per-tag keyword lists of `ClaudeAnalyzer._assign_fallback_tags`
(`tag_keywords`), in source order. -/
def tagKeywords : List (String × List String) :=
  [("Edge computing", ["edge", "fog", "distributed", "iot", "real-time", "latency"]),
   ("RSE", ["sustainability", "esg", "carbon", "environment", "social",
            "governance", "ethics", "responsible", "green"]),
   ("Risque augmenté", ["cybersecurity", "fraud", "monitoring", "risk",
                        "security", "compliance", "regulation"]),
   ("Game Changer", ["disruption", "innovation", "breakthrough",
                     "revolutionary", "transformation", "ai", "quantum"]),
   ("Prospective", ["future", "vision", "roadmap", "strategy", "long-term",
                    "emerging", "next-gen"])]

/-- Primitive JSON values appearing in a parsed remote reply. -/
inductive JPrim where
  | num (q : ℚ)
  | str (s : String)
  | boolean (b : Bool)
  | null
  | strArr (xs : List String)
deriving DecidableEq, Repr

/-- A value of a reply dict: a primitive or a one-level object of
primitives. This covers every shape the analyzer actually inspects (the
`scores` map and the passthrough fields); a more deeply nested value would
fail the validation exactly as an object does. -/
inductive JVal where
  | prim (p : JPrim)
  | obj (fields : List (String × JPrim))
deriving DecidableEq, Repr

/-- First-match association lookup, modelling Python dict access (dict
keys are unique, so the first match is the match). -/
def dictGet {α : Type} (d : List (String × α)) (k : String) : Option α :=
  match d with
  | [] => none
  | (k2, v) :: rest => if k2 = k then some v else dictGet rest k

/-- Association update modelling Python dict assignment: replace the value
at an existing key in place, otherwise append the new binding at the end
(insertion-order semantics of Python dicts). -/
def dictSet {α : Type} (d : List (String × α)) (k : String) (v : α) :
    List (String × α) :=
  match d with
  | [] => [(k, v)]
  | (k2, v2) :: rest =>
    if k2 = k then (k2, v) :: rest else (k2, v2) :: dictSet rest k v

/-- `combined_text` of `_fallback_analysis`: content and description joined
by one space (the f-string), lowercased. -/
def combinedText (content description : String) : String :=
  lowerStr (content ++ " " ++ description)

/-- One iteration of the inner keyword loop of `_fallback_analysis`:
accumulate the occurrence count and record the keyword when it occurs. -/
def keywordStep (combined : String) (acc : Nat × List String) (kw : String) :
    Nat × List String :=
  let count := countSub (lowerStr kw) combined
  if count > 0 then (acc.1 + count, acc.2 ++ [kw]) else acc

/-- The per-criterion pass of `_fallback_analysis`: builds the scores dict
(in `keywordsMapping` order, each score `min(raw_count * 2.5, 25)`) and the
accumulated `keywords_found` list. -/
def fallbackScores (combined : String) : List (String × ℚ) × List String :=
  keywordsMapping.foldl
    (fun acc pair =>
      let r := pair.2.foldl (keywordStep combined) (0, [])
      (acc.1 ++ [(pair.1, pyMin ((r.1 : ℚ) * (5 / 2)) 25)], acc.2 ++ r.2))
    ([], [])

/-- Model of `_assign_fallback_tags`: a tag is assigned when any of its
keywords occurs as a substring of the (already lowercased) text. -/
def assignFallbackTags (text : String) : List String :=
  (tagKeywords.filter (fun pair => pair.2.any (fun kw => strContains text kw))).map
    Prod.fst

/-- Result dict of `ClaudeAnalyzer._fallback_analysis`: scores per axis,
`total_score` as the sum of the score dict values, fallback tags, the fixed
justification string, and `keywords_found` truncated to 10 entries. -/
def fallback_analysis (content description : String) : List (String × JVal) :=
  let combined := combinedText content description
  let r := fallbackScores combined
  [("scores", JVal.obj (r.1.map (fun p => (p.1, JPrim.num p.2)))),
   ("total_score", JVal.prim (JPrim.num (r.1.map Prod.snd).sum)),
   ("tags", JVal.prim (JPrim.strArr (assignFallbackTags combined))),
   ("justification",
    JVal.prim (JPrim.str "Analyse par mots-clés (Claude indisponible)")),
   ("keywords_found", JVal.prim (JPrim.strArr (r.2.take 10)))]

/-- Clamp of one axis value in the validation loop:
`max(0, min(25, v))`. A number is clamped into `[0, 25]`; Python booleans
compare as numbers there (`True` survives both comparisons unchanged,
while `max(0, False)` returns the integer `0`); any other value raises
`TypeError`, which the surrounding `except` turns into fallback. -/
def clampAxisVal : JPrim → Option JPrim
  | JPrim.num q => some (JPrim.num (pyMax 0 (pyMin 25 q)))
  | JPrim.boolean b => some (if b then JPrim.boolean true else JPrim.num 0)
  | _ => none

/-- Numeric value of a dict entry as used by `sum(scores.values())`:
numbers and booleans add, anything else raises (modelled as `none`). -/
def numericVal : JPrim → Option ℚ
  | JPrim.num q => some q
  | JPrim.boolean b => some (if b then 1 else 0)
  | _ => none

/-- `sum(analysis["scores"].values())`, left to right; `none` when any
value is non-numeric (Python `TypeError`). -/
def sumValues (d : List (String × JPrim)) : Option ℚ :=
  d.foldl (fun acc p => acc.bind (fun a => (numericVal p.2).map (fun v => a + v)))
    (some 0)

/-- One step of the validation loop of `analyze_startup_relevance`: a
missing axis key is set to 0, a present one is clamped (a non-numeric
value raises, giving `none`). -/
def validateAxis (s : List (String × JPrim)) (key : String) :
    Option (List (String × JPrim)) :=
  match dictGet s key with
  | none => some (dictSet s key (JPrim.num 0))
  | some v => (clampAxisVal v).map (fun v2 => dictSet s key v2)

/-- The whole validation loop, folding `validateAxis` over the four axis
keys in source order. Only the four known keys are touched: any other key
of the scores dict keeps its value. -/
def validateAxes (s : List (String × JPrim)) : Option (List (String × JPrim)) :=
  axisNames.foldl (fun acc k => acc.bind (fun s2 => validateAxis s2 k)) (some s)

/-- The remote-reply handling of `analyze_startup_relevance` after
`json.loads`: requires the `scores` entry of the reply to be an object,
runs the axis validation loop on it, recomputes `total_score` as the sum
over all values of the validated scores dict, and writes both back into
the reply dict. `none` models any raised exception (missing or non-object
`scores`, non-numeric axis value, non-numeric extra value under the sum),
which the `except` clause turns into the fallback analysis. -/
def validateRemote (reply : List (String × JVal)) :
    Option (List (String × JVal)) :=
  match dictGet reply "scores" with
  | some (JVal.obj s0) =>
    match validateAxes s0 with
    | some s4 =>
      match sumValues s4 with
      | some total =>
        some (dictSet (dictSet reply "scores" (JVal.obj s4)) "total_score"
                (JVal.prim (JPrim.num total)))
      | none => none
    | none => none
  | _ => none

/-- `ClaudeAnalyzer.analyze_startup_relevance`. `enabled` is the presence
of API credentials at construction; `remote` is the outcome of the remote
call composed with `json.loads`: `none` when the call raised or the
response did not parse to a dict (both raise, reaching the same `except`),
`some reply` for a parsed reply dict. The company name only enters the
remote prompt, so it does not appear in the validation or the fallback. -/
def analyze_startup_relevance (enabled : Bool)
    (remote : Option (List (String × JVal)))
    (content description _company_name : String) : List (String × JVal) :=
  if enabled = false then fallback_analysis content description
  else
    match remote with
    | none => fallback_analysis content description
    | some reply =>
      match validateRemote reply with
      | some result => result
      | none => fallback_analysis content description

/-- The scores object of a result dict. -/
def getScores (r : List (String × JVal)) : Option (List (String × JPrim)) :=
  match dictGet r "scores" with
  | some (JVal.obj s) => some s
  | _ => none

/-- The numeric score of one axis in a result dict. -/
def getScore (r : List (String × JVal)) (axis : String) : Option ℚ :=
  (getScores r).bind (fun s => (dictGet s axis).bind numericVal)

/-- The numeric `total_score` entry of a result dict. -/
def getTotal (r : List (String × JVal)) : Option ℚ :=
  match dictGet r "total_score" with
  | some (JVal.prim (JPrim.num q)) => some q
  | _ => none

/-- The backing store of `CacheManager`: the diskcache mapping from cache
key to the stored record `{content, timestamp}`. The payload type is a
parameter (Python is dynamically typed); the scraper stores result dicts. -/
def CacheStore (α : Type) : Type := List (String × α × Nat)

/-- `CacheManager.get_cache_key`: the md5 hex digest of the url string.
The digest itself is an external primitive, passed in as the parameter
`digest`; what the method contributes is that the key is this function
applied to the url, nothing else. -/
def get_cache_key (digest : String → String) (url : String) : String :=
  digest url

/-- `CacheManager.get_cached_content`: look the key up, and return the
stored content only when the entry is younger than the ttl
(`now - cached_time < cache_duration`); an absent or stale entry gives
`none`. Time is an abstract tick; truncated `Nat` subtraction at 0 plays
the role of a negative age on a clock that went backwards, which the
source also treats as fresh. -/
def get_cached_content {α : Type} (digest : String → String) (ttl now : Nat)
    (cache : CacheStore α) (url : String) : Option α :=
  match dictGet cache (get_cache_key digest url) with
  | some entry => if now - entry.2 < ttl then some entry.1 else none
  | none => none

/-- `CacheManager.cache_content`: unconditionally store the content under
the key of the url, stamped with the current time. -/
def cache_content {α : Type} (digest : String → String) (now : Nat)
    (cache : CacheStore α) (url : String) (content : α) : CacheStore α :=
  dictSet cache (get_cache_key digest url) (content, now)

/-- The result dict of `scrape_single_website`: keys `content`, `title`,
`error`, `url`, `status`, `scraped_at`; a key absent from the dict built
by a given branch is `none` here. -/
structure Outcome where
  content : String
  title : String
  error : Option String
  url : String
  status : String
  scraped_at : Option Nat
deriving DecidableEq, Repr

/-- What the HTTP GET of a url does: a response with status and body, a
timeout, or a raised exception with its message. -/
inductive NetResult where
  | resp (status : Nat) (body : String)
  | timeout
  | exc (msg : String)
deriving DecidableEq, Repr

/-- `re.sub(r"\s+", " ", s)` on the char list: each maximal whitespace run
becomes a single space. -/
def collapseWSAux : List Char → List Char
  | [] => []
  | [c] => if c.isWhitespace then [' '] else [c]
  | c :: d :: rest =>
    if c.isWhitespace && d.isWhitespace then collapseWSAux (d :: rest)
    else if c.isWhitespace then ' ' :: collapseWSAux (d :: rest)
    else c :: collapseWSAux (d :: rest)

/-- Model of Python `str.strip()`: drop leading and trailing whitespace. -/
def stripStr (s : String) : String :=
  ⟨((s.data.dropWhile Char.isWhitespace).reverse.dropWhile
      Char.isWhitespace).reverse⟩

/-- `re.sub(r"\s+", " ", main_content).strip()` of the success branch. -/
def collapseWS (s : String) : String :=
  stripStr ⟨collapseWSAux s.data⟩

/-- External collaborators of one `scrape_single_website` call: the HTTP
session (`session.get`, keyed by the requested url) and the BeautifulSoup
extraction from a response body, giving (raw page text after the
script/style/nav/footer/header removal, raw title text, empty when there
is no title element). -/
structure ScrapeEnv where
  net : String → NetResult
  extract : String → String × String

/-- Url normalization inside `scrape_single_website`: `str(url).strip()`,
then prefix `https://` unless an `http://` or `https://` scheme is
already present. -/
def normalizeUrl (url : String) : String :=
  let u := stripStr url
  if startsWithStr u "http://" || startsWithStr u "https://" then u
  else "https://" ++ u

/-- `AsyncWebScraper.scrape_single_website`. Returns the outcome dict, the
cache after the call, and the number of network requests issued (0 or 1).
A blank url (Python falsy) returns the missing-url outcome at once. Note
the order in the source: the cache is consulted with the raw input url,
before the url normalization, while the success path writes the cache
under the normalized url. -/
def scrape_single_website (digest : String → String) (ttl : Nat)
    (env : ScrapeEnv) (now : Nat) (cache : CacheStore Outcome)
    (url : String) : Outcome × CacheStore Outcome × Nat :=
  if url = "" then
    ({ content := "", title := "", error := some "URL manquante", url := url,
       status := "failed", scraped_at := none }, cache, 0)
  else
    match get_cached_content digest ttl now cache url with
    | some cached => ({ cached with status := "cached" }, cache, 0)
    | none =>
      let nurl := normalizeUrl url
      match env.net nurl with
      | NetResult.resp s body =>
        if s = 200 then
          let e := env.extract body
          let result : Outcome :=
            { content := takeStr 3000 (collapseWS e.1), title := stripStr e.2,
              error := none, url := nurl, status := "success",
              scraped_at := some now }
          (result, cache_content digest now cache nurl result, 1)
        else
          ({ content := "", title := "", error := some ("HTTP " ++ toString s),
             url := nurl, status := "failed", scraped_at := none }, cache, 1)
      | NetResult.timeout =>
        ({ content := "", title := "", error := some "Timeout", url := nurl,
           status := "timeout", scraped_at := none }, cache, 1)
      | NetResult.exc m =>
        ({ content := "", title := "", error := some m, url := nurl,
           status := "failed", scraped_at := none }, cache, 1)

/-- `AsyncWebScraper.scrape_websites_batch`, abstracted over the results
of the per-url tasks: `taskResult i` is the awaited result of the task
for `urls[i]` (each task is total, since `scrape_single_website` catches
every exception of its fetch). With a progress callback the source
iterates `tqdm.as_completed(tasks)` and appends each result as it
completes, so the output order is the completion order, given here as the
index list `completionOrder`; without a callback it is `asyncio.gather`,
which returns the results in input (index) order. -/
def scrape_websites_batch (taskResult : Nat → Outcome) (withCallback : Bool)
    (completionOrder : List Nat) (urls : List String) : List Outcome :=
  if withCallback then completionOrder.map taskResult
  else (List.range urls.length).map taskResult

/-- A row of the input table: company name, website, description. -/
structure Target where
  name : String
  website : String
  description : String
deriving DecidableEq, Repr, Inhabited

/-- One entry of `scored_startups` as assembled by
`analyze_startups_async` (the pipeline-relevant fields; the remaining
columns are copied from the row verbatim). -/
structure AnalysisRecord where
  name : String
  website : String
  description : String
  website_content : String
  website_title : String
  scraping_status : String
  total_score : Option ℚ
  claude_analysis : List (String × JVal)
deriving DecidableEq, Repr

/-- The per-row assembly loop of
`VivaTechAnalyzerV2.analyze_startups_async`: one record per input row,
pairing row `idx` with `website_results[idx]` (an out-of-range index
degrades to an empty dict, whose `get` calls give the defaults). Scoring
runs unconditionally with the fetched content (empty on any fetch
failure) and the row description; `remote idx` is the remote reply for
the call made for row `idx`. The `total_score` field reads the
`total_score` entry the analyzer always sets. -/
def analyze_startups_async (enabled : Bool)
    (remote : Nat → Option (List (String × JVal)))
    (targets : List Target) (website_results : List Outcome) :
    List AnalysisRecord :=
  (List.range targets.length).map (fun idx =>
    let row := targets.getD idx default
    let wd := website_results[idx]?
    let content := (wd.map Outcome.content).getD ""
    let analysis := analyze_startup_relevance enabled (remote idx) content
      row.description row.name
    { name := row.name, website := row.website,
      description := row.description,
      website_content := takeStr 500 content,
      website_title := (wd.map Outcome.title).getD "",
      scraping_status := (wd.map Outcome.status).getD "unknown",
      total_score := getTotal analysis,
      claude_analysis := analysis })

/-- The fetch status vocabulary of the specification. -/
inductive SpecStatus where
  | success
  | cached
  | httpError
  | timedOut
  | raised
  | missingUrl
deriving DecidableEq, Repr

/-- Refinement map written from the words of the specification: the spec
status of a result dict, read off its `status` and `error` fields.
`MissingUrl` is the failed outcome carrying the missing-url error,
`HttpError` the failed outcome whose error starts with `HTTP `, and
`Exception` (here `raised`) any other failure. -/
def specStatus (o : Outcome) : SpecStatus :=
  if o.status = "success" then SpecStatus.success
  else if o.status = "cached" then SpecStatus.cached
  else if o.status = "timeout" then SpecStatus.timedOut
  else if o.error = some "URL manquante" then SpecStatus.missingUrl
  else if (o.error.map (fun e => startsWithStr e "HTTP ")).getD false then
    SpecStatus.httpError
  else SpecStatus.raised

/-- The key list of a dict, in insertion order. -/
def dictKeys {α : Type} (d : List (String × α)) : List String :=
  d.map Prod.fst

/-- The total number of case-insensitive occurrences of the keywords of
one axis in a text: the sum, over the keyword list, of the non-overlapping
occurrence counts. This is the quantity `N` of the specification sentence
about the keyword scorer. -/
def totalCount (kws : List String) (text : String) : Nat :=
  (kws.map (fun kw => countSub (lowerStr kw) text)).sum

/-- Concrete per-index task results used to exhibit the completion-order
behaviour of the batch: distinct successful outcomes. -/
def taskOutcomeAt : Nat → Outcome := fun i =>
  { content := toString i, title := "", error := none, url := "",
    status := "success", scraped_at := none }

/-- A concrete scrape environment: every request succeeds with status 200
and the body is taken as the page text, with an empty title. -/
def okEnv : ScrapeEnv :=
  { net := fun _ => NetResult.resp 200 "hello world",
    extract := fun b => (b, "") }

/-- A concrete scrape environment where every request times out. -/
def timeoutEnv : ScrapeEnv :=
  { net := fun _ => NetResult.timeout, extract := fun b => (b, "") }

/-- First call of the cache-key demonstration: fetching the scheme-less
url `example.com` against an empty cache (identity digest standing in for
the injective md5 hex digest). -/
def schemelessFirst : Outcome × CacheStore Outcome × Nat :=
  scrape_single_website (fun s => s) 100 okEnv 0 [] "example.com"

/-- Second call of the cache-key demonstration: the same url again, 5
ticks later, against the cache left by the first call. -/
def schemelessSecond : Outcome × CacheStore Outcome × Nat :=
  scrape_single_website (fun s => s) 100 okEnv 5 schemelessFirst.2.1
    "example.com"

/-- A remote reply whose scores entry is a string, not an object: the
validation raises on it. -/
def malformedReply : List (String × JVal) :=
  [("scores", JVal.prim (JPrim.str "oops"))]

/-- A remote reply whose scores object carries an extra key beyond the
four axes: the validation loop never touches it, yet the sum includes it. -/
def extraKeyReply : List (String × JVal) :=
  [("scores", JVal.obj [("numerisation", JPrim.num 10),
                        ("bogus", JPrim.num 999)])]

/-- A remote reply whose scores object stays within the four axes but
carries an oversized value, a negative value, two missing axes and a
bogus `total_score`: exercises the clamp, the default and the local
recomputation of the total on the remote path. -/
def clampedKeysReply : List (String × JVal) :=
  [("scores", JVal.obj [("numerisation", JPrim.num 30),
                        ("extraction", JPrim.num (-5))]),
   ("total_score", JVal.prim (JPrim.num 999))]

/-- The scenario target of the specification: blank url, a description
carrying digitization keywords. -/
def acmeTarget : Target :=
  { name := "Acme", website := "", description := "document OCR scan" }

/-- The fetch outcome of the scenario target (blank url, so the scraper
returns at once; the environment is never consulted). -/
def acmeOutcome : Outcome :=
  (scrape_single_website (fun s => s) 100 okEnv 0 [] "").1

/-! Association-list (Python dict) lemmas shared by the claim proofs. -/

theorem dictGet_dictSet_self {α : Type} (d : List (String × α)) (k : String)
    (v : α) : dictGet (dictSet d k v) k = some v := by
  induction d with
  | nil => simp [dictGet, dictSet]
  | cons p rest ih =>
    rcases p with ⟨k2, v2⟩
    by_cases h : k2 = k
    · simp [dictSet, dictGet, h]
    · simp [dictSet, dictGet, h, ih]

theorem dictGet_dictSet_ne {α : Type} (d : List (String × α)) (k k2 : String)
    (v : α) (h : k ≠ k2) : dictGet (dictSet d k v) k2 = dictGet d k2 := by
  induction d with
  | nil => simp [dictGet, dictSet, h]
  | cons p rest ih =>
    rcases p with ⟨k3, v3⟩
    by_cases h3 : k3 = k
    · subst h3; simp [dictSet, dictGet, h, Ne.symm h]
    · by_cases h4 : k3 = k2 <;> simp [dictSet, dictGet, h3, h4, Ne.symm h, ih]

theorem mem_dictKeys_cons {α : Type} (k k2 : String) (v2 : α)
    (rest : List (String × α)) :
    k ∈ dictKeys ((k2, v2) :: rest) ↔ k = k2 ∨ k ∈ dictKeys rest := by
  simp [dictKeys]

theorem mem_dictKeys_of_dictGet {α : Type} {d : List (String × α)}
    {k : String} {v : α} (h : dictGet d k = some v) : k ∈ dictKeys d := by
  induction d with
  | nil => simp [dictGet] at h
  | cons p rest ih =>
    rcases p with ⟨k2, v2⟩
    rw [mem_dictKeys_cons]
    by_cases h2 : k2 = k
    · exact Or.inl h2.symm
    · simp only [dictGet, if_neg h2] at h
      exact Or.inr (ih h)

theorem dictGet_eq_none_of_not_mem {α : Type} {d : List (String × α)}
    {k : String} (h : k ∉ dictKeys d) : dictGet d k = none := by
  induction d with
  | nil => rfl
  | cons p rest ih =>
    rcases p with ⟨k2, v2⟩
    rw [mem_dictKeys_cons] at h
    push_neg at h
    simp [dictGet, Ne.symm h.1, ih h.2]

theorem dictKeys_dictSet_mem {α : Type} (d : List (String × α)) (k : String)
    (v : α) (h : k ∈ dictKeys d) : dictKeys (dictSet d k v) = dictKeys d := by
  induction d with
  | nil => simp [dictKeys] at h
  | cons p rest ih =>
    rcases p with ⟨k2, v2⟩
    rw [mem_dictKeys_cons] at h
    by_cases h2 : k2 = k
    · simp [dictSet, dictKeys, h2]
    · have h3 : k ∈ dictKeys rest := by
        rcases h with h | h
        · exact absurd h.symm h2
        · exact h
      simp only [dictSet, if_neg h2, dictKeys, List.map_cons]
      simp only [dictKeys] at ih
      rw [ih h3]

theorem dictKeys_dictSet_not_mem {α : Type} (d : List (String × α))
    (k : String) (v : α) (h : k ∉ dictKeys d) :
    dictKeys (dictSet d k v) = dictKeys d ++ [k] := by
  induction d with
  | nil => simp [dictSet, dictKeys]
  | cons p rest ih =>
    rcases p with ⟨k2, v2⟩
    rw [mem_dictKeys_cons] at h
    push_neg at h
    simp only [dictSet, if_neg (Ne.symm h.1), dictKeys, List.map_cons]
    simp only [dictKeys] at ih
    rw [ih h.2]
    simp

/-! C5: cache round trip and TTL expiry. -/

/-- C5: for every url and payload, `put(url, payload)` followed by
`get(url)` returns the stored payload unchanged when the time elapsed
since the put is below the TTL, and returns `none` once the TTL has
elapsed. -/
theorem C5_cache_roundtrip {α : Type} (digest : String → String)
    (ttl t t2 : Nat) (cache : CacheStore α) (url : String) (payload : α) :
    (t2 - t < ttl →
      get_cached_content digest ttl t2
        (cache_content digest t cache url payload) url = some payload) ∧
    (ttl ≤ t2 - t →
      get_cached_content digest ttl t2
        (cache_content digest t cache url payload) url = none) := by
  have hget : dictGet (cache_content digest t cache url payload)
      (get_cache_key digest url) = some (payload, t) :=
    dictGet_dictSet_self cache (get_cache_key digest url) (payload, t)
  constructor
  · intro hfresh
    simp [get_cached_content, hget, hfresh]
  · intro hstale
    simp [get_cached_content, hget]
    omega

/-- Witness for C5 with a concrete store, url, payload and clock. -/
theorem C5_cache_roundtrip_witness :
    (3 - 0 < 10 ∧
      get_cached_content (fun s => s) 10 3
        (cache_content (fun s => s) 0 ([] : CacheStore String) "http://a.com"
          "payload") "http://a.com" = some "payload") ∧
    (10 ≤ 12 - 0 ∧
      get_cached_content (fun s => s) 10 12
        (cache_content (fun s => s) 0 ([] : CacheStore String) "http://a.com"
          "payload") "http://a.com" = none) :=
  ⟨⟨by omega,
    (C5_cache_roundtrip (fun s => s) 10 0 3 [] "http://a.com" "payload").1
      (by omega)⟩,
   ⟨by omega,
    (C5_cache_roundtrip (fun s => s) 10 0 12 [] "http://a.com" "payload").2
      (by omega)⟩⟩

/-! C7: every remote failure falls back to the keyword scorer. -/

/-- C7: on the remote scoring path, a raised remote call or a reply the
validation rejects (malformed, unparseable, wrong shapes) makes
`analyze_startup_relevance` return exactly the keyword fallback result;
the function is total, so such a failure is never fatal. -/
theorem C7_remote_failure_falls_back (content description name : String)
    (remote : Option (List (String × JVal)))
    (h : remote = none ∨
      ∃ reply, remote = some reply ∧ validateRemote reply = none) :
    analyze_startup_relevance true remote content description name
      = fallback_analysis content description := by
  rcases h with h | ⟨reply, hr, hv⟩
  · subst h; rfl
  · subst hr
    simp [analyze_startup_relevance, hv]

/-- Witness for C7: a parsed reply whose scores entry is a string is
rejected by the validation and scored by the fallback. -/
theorem C7_remote_failure_falls_back_witness :
    (some malformedReply = none ∨
      ∃ reply, some malformedReply = some reply ∧ validateRemote reply = none) ∧
    analyze_startup_relevance true (some malformedReply) "a" "b" "c"
      = fallback_analysis "a" "b" :=
  ⟨Or.inr ⟨malformedReply, rfl, rfl⟩,
   C7_remote_failure_falls_back "a" "b" "c" (some malformedReply)
     (Or.inr ⟨malformedReply, rfl, rfl⟩)⟩

/-! C10: with the remote scorer disabled the company name is irrelevant. -/

/-- C10: when the remote scorer is disabled, the result of
`analyze_startup_relevance` is independent of the company name: the
disabled path goes straight to the fallback, which never reads the name. -/
theorem C10_disabled_ignores_name (remote : Option (List (String × JVal)))
    (content description n1 n2 : String) :
    analyze_startup_relevance false remote content description n1
      = analyze_startup_relevance false remote content description n2 := rfl

/-! C8: failed fetches have empty text and never write the cache. -/

/-- C8: for every fetch whose outcome is a failure (missing url, timeout,
non-200 status or exception, i.e. status `failed` or `timeout`), the
outcome text is empty and the cache is returned unchanged; conversely the
only call that changes the cache is a successful one. -/
theorem C8_failure_empty_and_uncached (digest : String → String) (ttl : Nat)
    (env : ScrapeEnv) (now : Nat) (cache : CacheStore Outcome)
    (url : String) :
    ((scrape_single_website digest ttl env now cache url).1.status = "failed"
        ∨ (scrape_single_website digest ttl env now cache url).1.status
            = "timeout" →
      (scrape_single_website digest ttl env now cache url).1.content = "" ∧
      (scrape_single_website digest ttl env now cache url).2.1 = cache) ∧
    ((scrape_single_website digest ttl env now cache url).2.1 ≠ cache →
      (scrape_single_website digest ttl env now cache url).1.status
        = "success") := by
  by_cases hurl : url = ""
  · subst hurl
    simp [scrape_single_website]
  · cases hcache : get_cached_content digest ttl now cache url with
    | none =>
      cases hnet : env.net (normalizeUrl url) with
      | resp s body =>
        by_cases hs : s = 200
        · subst hs
          simp [scrape_single_website, hurl, hcache, hnet]
        · simp [scrape_single_website, hurl, hcache, hnet, hs]
      | timeout => simp [scrape_single_website, hurl, hcache, hnet]
      | exc msg => simp [scrape_single_website, hurl, hcache, hnet]
    | some cached => simp [scrape_single_website, hurl, hcache]

/-- Witness for C8: a timeout leaves an empty cache empty and an empty
text, at a concrete url. -/
theorem C8_failure_empty_and_uncached_witness :
    ((scrape_single_website (fun s => s) 100 timeoutEnv 0 []
        "https://a.com").1.status = "failed" ∨
      (scrape_single_website (fun s => s) 100 timeoutEnv 0 []
        "https://a.com").1.status = "timeout") ∧
    (scrape_single_website (fun s => s) 100 timeoutEnv 0 []
        "https://a.com").1.content = "" ∧
    (scrape_single_website (fun s => s) 100 timeoutEnv 0 []
        "https://a.com").2.1 = [] :=
  ⟨Or.inr (by rfl),
   (C8_failure_empty_and_uncached (fun s => s) 100 timeoutEnv 0 []
      "https://a.com").1 (Or.inr (by rfl))⟩

/-! C1: output order of the batch fetch. -/

/-- C1: the claim fails on the source. On the progress-callback path
(the one `analyze_startups_async` always takes) the batch appends results
as `tqdm.as_completed` yields them: with two targets whose second fetch
completes first, the outcome at position 0 is the outcome of target 1,
not of target 0, although the two outcomes differ. -/
theorem C1_callback_breaks_index_alignment :
    scrape_websites_batch taskOutcomeAt true [1, 0]
        ["https://a.com", "https://b.com"]
      = [taskOutcomeAt 1, taskOutcomeAt 0] ∧
    taskOutcomeAt 1 ≠ taskOutcomeAt 0 := by
  exact ⟨rfl, by decide⟩

/-! C2: cache short-circuit on a repeated url. -/

/-- C2 counterexample: the claim as stated fails. With the identity
digest standing in for the (injective) md5 hex digest, the scheme-less
url `example.com` is fetched successfully and cached on a first call, yet
a second call 5 ticks later (far within the TTL of 100) fetches over the
network again: its status is `success`, not `cached`, and it issues one
network request. The lookup key is the digest of the raw url while the
write key is the digest of the normalized url `https://example.com`. -/
theorem C2_counterexample :
    schemelessFirst.1.status = "success" ∧
    schemelessSecond.1.status = "success" ∧
    schemelessSecond.1.status ≠ "cached" ∧
    schemelessSecond.2.2 = 1 := by
  refine ⟨rfl, rfl, by decide, rfl⟩

/-- C2 amended: for a url that is already in normalized form (equal to
its trimmed, scheme-prefixed normalization, as the lookup key is the
digest of the raw url and the write key the digest of the normalized
url), a successful fetch followed by a second fetch of the same url
within the TTL yields status `Cached` carrying exactly the first result
as payload, leaves the cache unchanged and issues zero network calls. -/
theorem C2_amended_cache_short_circuit (digest : String → String)
    (ttl : Nat) (env : ScrapeEnv) (cache : CacheStore Outcome)
    (url body : String) (t t2 : Nat) (hne : url ≠ "")
    (hnorm : normalizeUrl url = url)
    (hmiss : get_cached_content digest ttl t cache url = none)
    (hnet : env.net url = NetResult.resp 200 body) (hfresh : t2 - t < ttl) :
    (scrape_single_website digest ttl env t cache url).1.status = "success"
    ∧ (scrape_single_website digest ttl env t2
          (scrape_single_website digest ttl env t cache url).2.1 url).1
        = { (scrape_single_website digest ttl env t cache url).1 with
            status := "cached" }
    ∧ (scrape_single_website digest ttl env t2
          (scrape_single_website digest ttl env t cache url).2.1 url).2.1
        = (scrape_single_website digest ttl env t cache url).2.1
    ∧ (scrape_single_website digest ttl env t2
          (scrape_single_website digest ttl env t cache url).2.1 url).2.2
        = 0 := by
  have hnet2 : env.net (normalizeUrl url) = NetResult.resp 200 body := by
    rw [hnorm]; exact hnet
  have h1 : scrape_single_website digest ttl env t cache url
      = ({ content := takeStr 3000 (collapseWS (env.extract body).1),
           title := stripStr (env.extract body).2, error := none,
           url := url, status := "success", scraped_at := some t },
         cache_content digest t cache url
           { content := takeStr 3000 (collapseWS (env.extract body).1),
             title := stripStr (env.extract body).2, error := none,
             url := url, status := "success", scraped_at := some t }, 1) := by
    simp [scrape_single_website, hne, hmiss, hnorm, hnet2, hnet]
  have h2 : ∀ res : Outcome,
      get_cached_content digest ttl t2
        (cache_content digest t cache url res) url = some res := by
    intro res
    simp [get_cached_content, cache_content, dictGet_dictSet_self, hfresh]
  rw [h1]
  simp [scrape_single_website, hne, h2]

/-- Witness for the amended C2 at a concrete normalized url, environment
and clock. -/
theorem C2_amended_cache_short_circuit_witness :
    ("https://a.com" ≠ "" ∧ normalizeUrl "https://a.com" = "https://a.com"
      ∧ get_cached_content (fun s => s) 100 0 ([] : CacheStore Outcome)
          "https://a.com" = none
      ∧ okEnv.net "https://a.com" = NetResult.resp 200 "hello world"
      ∧ 5 - 0 < 100)
    ∧ (scrape_single_website (fun s => s) 100 okEnv 5
          (scrape_single_website (fun s => s) 100 okEnv 0 []
            "https://a.com").2.1 "https://a.com").1
        = { (scrape_single_website (fun s => s) 100 okEnv 0 []
              "https://a.com").1 with status := "cached" }
    ∧ (scrape_single_website (fun s => s) 100 okEnv 5
          (scrape_single_website (fun s => s) 100 okEnv 0 []
            "https://a.com").2.1 "https://a.com").2.2 = 0 :=
  ⟨⟨by decide, by decide, rfl, rfl, by omega⟩,
   (C2_amended_cache_short_circuit (fun s => s) 100 okEnv [] "https://a.com"
      "hello world" 0 5 (by decide) (by decide) rfl rfl (by omega)).2.1,
   (C2_amended_cache_short_circuit (fun s => s) 100 okEnv [] "https://a.com"
      "hello world" 0 5 (by decide) (by decide) rfl rfl (by omega)).2.2.2⟩

/-! Shared lemmas on the keyword fallback scorer. -/

theorem keywordStep_fst (combined : String) (acc : Nat × List String)
    (kw : String) :
    (keywordStep combined acc kw).1
      = acc.1 + countSub (lowerStr kw) combined := by
  unfold keywordStep
  by_cases h : countSub (lowerStr kw) combined > 0
  · simp [h]
  · simp [h]; omega

theorem keywordFold_fst (combined : String) (kws : List String)
    (acc : Nat × List String) :
    (kws.foldl (keywordStep combined) acc).1
      = acc.1 + totalCount kws combined := by
  induction kws generalizing acc with
  | nil => simp [totalCount]
  | cons kw rest ih =>
    simp only [List.foldl_cons]
    rw [ih, keywordStep_fst]
    simp [totalCount]
    omega

theorem fallbackScores_fst (combined : String) :
    (fallbackScores combined).1
      = keywordsMapping.map (fun pair =>
          (pair.1, pyMin ((totalCount pair.2 combined : ℚ) * (5 / 2)) 25)) := by
  simp [fallbackScores, keywordsMapping, keywordFold_fst]

theorem getScore_fallback (content description : String) (axis : String)
    (kws : List String) (h : (axis, kws) ∈ keywordsMapping) :
    getScore (fallback_analysis content description) axis
      = some (pyMin
          ((totalCount kws (combinedText content description) : ℚ) * (5 / 2))
          25) := by
  simp only [keywordsMapping, List.mem_cons, List.mem_singleton,
    List.not_mem_nil, or_false, Prod.mk.injEq] at h
  rcases h with ⟨h1, h2⟩ | ⟨h1, h2⟩ | ⟨h1, h2⟩ | ⟨h1, h2⟩ <;>
    subst h1 <;> subst h2 <;>
    simp [getScore, getScores, fallback_analysis, fallbackScores_fst,
      keywordsMapping, dictGet, numericVal]

/-! C9: the blank-url scenario. -/

/-- C9: the target `Acme` with a blank url and description
`document OCR scan` yields the missing-url outcome with empty text, and
the orchestrator still runs the keyword scorer on the description alone,
giving the numerisation axis the score 7.5, which is positive. -/
theorem C9_blank_url_scenario :
    specStatus acmeOutcome = SpecStatus.missingUrl ∧
    acmeOutcome.content = "" ∧
    (analyze_startups_async false (fun _ => none) [acmeTarget]
        [acmeOutcome]).map
        (fun rec => getScore rec.claude_analysis "numerisation")
      = [some (15 / 2)] ∧
    (0 : ℚ) < 15 / 2 := by
  refine ⟨by decide, rfl, ?_, by norm_num⟩
  have h1 : (analyze_startups_async false (fun _ => none) [acmeTarget]
        [acmeOutcome]).map
        (fun rec => getScore rec.claude_analysis "numerisation")
      = [getScore (fallback_analysis "" "document OCR scan") "numerisation"] :=
    rfl
  have hmem : ("numerisation",
      ["ocr", "document", "scan", "digitization", "digitisation", "pdf",
       "paper", "archive", "capture", "recognition"]) ∈ keywordsMapping := by
    simp [keywordsMapping]
  have hcount : totalCount
      ["ocr", "document", "scan", "digitization", "digitisation", "pdf",
       "paper", "archive", "capture", "recognition"]
      (combinedText "" "document OCR scan") = 3 := by decide
  rw [h1, getScore_fallback _ _ _ _ hmem, hcount]
  norm_num [pyMin]

/-! C6: the keyword fallback axis score formula. -/

/-- C6: for every text and description and every axis of the keyword
mapping, the fallback score of that axis equals
`min(2.5 * N, 25)` where `N` is the total number of case-insensitive
non-overlapping occurrences of the keywords of that axis in the combined
text (text, one space, description, lowercased). -/
theorem C6_fallback_axis_score_formula (content description : String)
    (axis : String) (kws : List String) (h : (axis, kws) ∈ keywordsMapping) :
    getScore (fallback_analysis content description) axis
      = some (pyMin
          ((totalCount kws (combinedText content description) : ℚ) * (5 / 2))
          25) :=
  getScore_fallback content description axis kws h

/-- Witness for C6 on the extraction axis of a concrete text. -/
theorem C6_fallback_axis_score_formula_witness :
    (("extraction",
      ["data extraction", "data mining", "analytics", "intelligence", "etl",
       "data processing", "information extraction", "nlp", "text mining"])
        ∈ keywordsMapping) ∧
    getScore (fallback_analysis "We do data mining." "analytics experts")
        "extraction"
      = some (pyMin
          ((totalCount
              ["data extraction", "data mining", "analytics", "intelligence",
               "etl", "data processing", "information extraction", "nlp",
               "text mining"]
              (combinedText "We do data mining." "analytics experts") : ℚ)
            * (5 / 2)) 25) :=
  ⟨by simp [keywordsMapping],
   C6_fallback_axis_score_formula "We do data mining." "analytics experts"
     "extraction" _ (by simp [keywordsMapping])⟩

/-! C4: result cardinality equals target cardinality. -/

/-- C4: for every list of targets, every per-task outcome assignment and
every completion order (a permutation of the task indices), the batch
returns exactly one outcome per url, and the orchestrator loop builds
exactly one record per input target, the record at position `i` being
built from the target at position `i` — no per-target failure can change
the cardinality, as every task and the scorer are total. -/
theorem C4_result_cardinality (taskResult : Nat → Outcome)
    (withCallback : Bool) (completionOrder : List Nat) (urls : List String)
    (enabled : Bool) (remote : Nat → Option (List (String × JVal)))
    (targets : List Target)
    (hperm : completionOrder.Perm (List.range urls.length)) :
    (scrape_websites_batch taskResult withCallback completionOrder
        urls).length = urls.length ∧
    (analyze_startups_async enabled remote targets
        (scrape_websites_batch taskResult withCallback completionOrder
          urls)).length = targets.length ∧
    ∀ i : Nat,
      ((analyze_startups_async enabled remote targets
          (scrape_websites_batch taskResult withCallback completionOrder
            urls))[i]?).map (fun rec => rec.name)
        = (targets[i]?).map Target.name := by
  refine ⟨?_, ?_, ?_⟩
  · unfold scrape_websites_batch
    cases withCallback with
    | true => simp [hperm.length_eq]
    | false => simp
  · simp [analyze_startups_async]
  · intro i
    by_cases hi : i < targets.length
    · simp [analyze_startups_async, List.getElem?_range, hi,
        List.getD_eq_getElem targets default hi,
        List.getElem?_eq_getElem hi]
    · have h1 : (List.range targets.length)[i]? = none := by
        simp [List.getElem?_eq_none_iff]
        omega
      have h2 : targets[i]? = none := by
        simp [List.getElem?_eq_none_iff]
        omega
      simp [analyze_startups_async, List.getElem?_map, h1, h2]

/-- Witness for C4: two targets, two urls, the second task completing
first. -/
theorem C4_result_cardinality_witness :
    ([1, 0].Perm (List.range (["u", "v"] : List String).length)) ∧
    (analyze_startups_async false (fun _ => none)
        [{ name := "A", website := "u", description := "" },
         { name := "B", website := "v", description := "" }]
        (scrape_websites_batch taskOutcomeAt true [1, 0]
          ["u", "v"])).length = 2 :=
  ⟨by decide,
   (C4_result_cardinality taskOutcomeAt true [1, 0] ["u", "v"] false
      (fun _ => none)
      [{ name := "A", website := "u", description := "" },
       { name := "B", website := "v", description := "" }]
      (by decide)).2.1⟩

/-! Shared lemmas on the remote-reply validation, for the score bounds. -/

theorem pyMin_le_right (a b : ℚ) : pyMin a b ≤ b := by
  unfold pyMin
  split <;> linarith

theorem pyMin_nonneg {a b : ℚ} (ha : 0 ≤ a) (hb : 0 ≤ b) : 0 ≤ pyMin a b := by
  unfold pyMin
  split <;> linarith

theorem clamp_mem_Icc (q : ℚ) :
    0 ≤ pyMax 0 (pyMin 25 q) ∧ pyMax 0 (pyMin 25 q) ≤ 25 := by
  unfold pyMin pyMax
  split_ifs <;> constructor <;> linarith

theorem clampAxisVal_bounds {v p : JPrim} (h : clampAxisVal v = some p) :
    ∃ q, numericVal p = some q ∧ 0 ≤ q ∧ q ≤ 25 := by
  cases v with
  | num q =>
    simp only [clampAxisVal, Option.some.injEq] at h
    subst h
    exact ⟨pyMax 0 (pyMin 25 q), rfl, (clamp_mem_Icc q).1, (clamp_mem_Icc q).2⟩
  | boolean b =>
    simp only [clampAxisVal, Option.some.injEq] at h
    subst h
    cases b with
    | true => exact ⟨1, rfl, by norm_num, by norm_num⟩
    | false => exact ⟨0, rfl, le_refl 0, by norm_num⟩
  | str s => simp [clampAxisVal] at h
  | null => simp [clampAxisVal] at h
  | strArr xs => simp [clampAxisVal] at h

theorem validateAxis_spec {s s2 : List (String × JPrim)} {k : String}
    (h : validateAxis s k = some s2) :
    ∃ p, s2 = dictSet s k p ∧
      ∃ q, numericVal p = some q ∧ 0 ≤ q ∧ q ≤ 25 := by
  unfold validateAxis at h
  cases hg : dictGet s k with
  | none =>
    simp only [hg, Option.some.injEq] at h
    exact ⟨JPrim.num 0, h.symm, 0, rfl, le_refl 0, by norm_num⟩
  | some v =>
    cases hc : clampAxisVal v with
    | none => simp [hg, hc] at h
    | some p =>
      simp only [hg, hc, Option.map_some', Option.some.injEq] at h
      exact ⟨p, h.symm, clampAxisVal_bounds hc⟩

theorem validateAxis_self {s s2 : List (String × JPrim)} {k : String}
    (h : validateAxis s k = some s2) :
    ∃ p, dictGet s2 k = some p ∧
      ∃ q, numericVal p = some q ∧ 0 ≤ q ∧ q ≤ 25 := by
  obtain ⟨p, rfl, hq⟩ := validateAxis_spec h
  exact ⟨p, dictGet_dictSet_self s k p, hq⟩

theorem validateAxis_other {s s2 : List (String × JPrim)} {k k2 : String}
    (h : validateAxis s k = some s2) (hne : k ≠ k2) :
    dictGet s2 k2 = dictGet s k2 := by
  obtain ⟨p, rfl, _⟩ := validateAxis_spec h
  exact dictGet_dictSet_ne s k k2 p hne

theorem validateAxis_keys {s s2 : List (String × JPrim)} {k : String}
    (h : validateAxis s k = some s2) :
    dictKeys s2 = dictKeys s ∨ dictKeys s2 = dictKeys s ++ [k] := by
  obtain ⟨p, rfl, _⟩ := validateAxis_spec h
  by_cases hk : k ∈ dictKeys s
  · exact Or.inl (dictKeys_dictSet_mem s k p hk)
  · exact Or.inr (dictKeys_dictSet_not_mem s k p hk)

theorem validateAxis_nodup {s s2 : List (String × JPrim)} {k : String}
    (h : validateAxis s k = some s2) (hnd : (dictKeys s).Nodup) :
    (dictKeys s2).Nodup := by
  obtain ⟨p, rfl, _⟩ := validateAxis_spec h
  by_cases hk : k ∈ dictKeys s
  · rw [dictKeys_dictSet_mem s k p hk]; exact hnd
  · rw [dictKeys_dictSet_not_mem s k p hk]
    simp [List.nodup_append, hnd, hk]

theorem validateAxis_keys_subset {s s2 : List (String × JPrim)} {k : String}
    (h : validateAxis s k = some s2) :
    ∀ x ∈ dictKeys s2, x ∈ dictKeys s ∨ x = k := by
  intro x hx
  rcases validateAxis_keys h with he | he <;> rw [he] at hx
  · exact Or.inl hx
  · rcases List.mem_append.mp hx with hx | hx
    · exact Or.inl hx
    · exact Or.inr (List.mem_singleton.mp hx)

theorem validateAxes_steps {s s4 : List (String × JPrim)}
    (h : validateAxes s = some s4) :
    ∃ s1 s2 s3,
      validateAxis s "numerisation" = some s1 ∧
      validateAxis s1 "extraction" = some s2 ∧
      validateAxis s2 "certification" = some s3 ∧
      validateAxis s3 "mise_disposition" = some s4 := by
  unfold validateAxes axisNames at h
  simp only [List.foldl_cons, List.foldl_nil, Option.some_bind] at h
  cases h1 : validateAxis s "numerisation" with
  | none => rw [h1] at h; simp at h
  | some s1 =>
    rw [h1] at h
    simp only [Option.some_bind] at h
    cases h2 : validateAxis s1 "extraction" with
    | none => rw [h2] at h; simp at h
    | some s2 =>
      rw [h2] at h
      simp only [Option.some_bind] at h
      cases h3 : validateAxis s2 "certification" with
      | none => rw [h3] at h; simp at h
      | some s3 =>
        rw [h3] at h
        simp only [Option.some_bind] at h
        exact ⟨s1, s2, s3, rfl, h2, h3, h⟩

theorem validateAxes_axis_bounds {s s4 : List (String × JPrim)}
    (h : validateAxes s = some s4) :
    ∀ a ∈ axisNames, ∃ p, dictGet s4 a = some p ∧
      ∃ q, numericVal p = some q ∧ 0 ≤ q ∧ q ≤ 25 := by
  obtain ⟨s1, s2, s3, h1, h2, h3, h4⟩ := validateAxes_steps h
  intro a ha
  simp only [axisNames, List.mem_cons, List.not_mem_nil, or_false] at ha
  rcases ha with rfl | rfl | rfl | rfl
  · obtain ⟨p, hp, hq⟩ := validateAxis_self h1
    refine ⟨p, ?_, hq⟩
    rw [validateAxis_other h4 (by decide), validateAxis_other h3 (by decide),
        validateAxis_other h2 (by decide)]
    exact hp
  · obtain ⟨p, hp, hq⟩ := validateAxis_self h2
    refine ⟨p, ?_, hq⟩
    rw [validateAxis_other h4 (by decide), validateAxis_other h3 (by decide)]
    exact hp
  · obtain ⟨p, hp, hq⟩ := validateAxis_self h3
    refine ⟨p, ?_, hq⟩
    rw [validateAxis_other h4 (by decide)]
    exact hp
  · exact validateAxis_self h4

theorem validateAxes_nodup {s s4 : List (String × JPrim)}
    (h : validateAxes s = some s4) (hnd : (dictKeys s).Nodup) :
    (dictKeys s4).Nodup := by
  obtain ⟨s1, s2, s3, h1, h2, h3, h4⟩ := validateAxes_steps h
  exact validateAxis_nodup h4 (validateAxis_nodup h3
    (validateAxis_nodup h2 (validateAxis_nodup h1 hnd)))

theorem validateAxes_keys_subset {s s4 : List (String × JPrim)}
    (h : validateAxes s = some s4)
    (hsub : ∀ k ∈ dictKeys s, k ∈ axisNames) :
    ∀ k ∈ dictKeys s4, k ∈ axisNames := by
  obtain ⟨s1, s2, s3, h1, h2, h3, h4⟩ := validateAxes_steps h
  intro k hk
  rcases validateAxis_keys_subset h4 k hk with hk | rfl
  · rcases validateAxis_keys_subset h3 k hk with hk | rfl
    · rcases validateAxis_keys_subset h2 k hk with hk | rfl
      · rcases validateAxis_keys_subset h1 k hk with hk | rfl
        · exact hsub k hk
        · simp [axisNames]
      · simp [axisNames]
    · simp [axisNames]
  · simp [axisNames]

theorem sumValues_foldl_none (d : List (String × JPrim)) :
    d.foldl (fun acc p =>
        acc.bind fun a => (numericVal p.2).map fun v => a + v) none
      = none := by
  induction d with
  | nil => rfl
  | cons p rest ih => simpa using ih

theorem sumValues_go {d : List (String × JPrim)} {a T : ℚ}
    (h : d.foldl (fun acc p =>
        acc.bind fun x => (numericVal p.2).map fun v => x + v) (some a)
      = some T) :
    T = a + (d.map (fun p => (numericVal p.2).getD 0)).sum := by
  induction d generalizing a with
  | nil =>
    simp only [List.foldl_nil, Option.some.injEq] at h
    simp [h.symm]
  | cons p rest ih =>
    simp only [List.foldl_cons] at h
    cases hn : numericVal p.2 with
    | none =>
      rw [hn] at h
      simp only [Option.map_none', Option.some_bind] at h
      rw [sumValues_foldl_none] at h
      cases h
    | some v =>
      rw [hn] at h
      simp only [Option.some_bind, Option.map_some'] at h
      have := ih h
      simp only [List.map_cons, List.sum_cons, hn, Option.getD_some]
      rw [this]
      ring

theorem sumValues_eq {d : List (String × JPrim)} {T : ℚ}
    (h : sumValues d = some T) :
    T = (d.map (fun p => (numericVal p.2).getD 0)).sum := by
  unfold sumValues at h
  simpa using sumValues_go h

theorem entries_sum_eq_keys_sum {d : List (String × JPrim)}
    (hnd : (dictKeys d).Nodup) :
    (d.map (fun p => (numericVal p.2).getD 0)).sum
      = ((dictKeys d).map
          (fun k => ((dictGet d k).bind numericVal).getD 0)).sum := by
  induction d with
  | nil => rfl
  | cons p rest ih =>
    rcases p with ⟨k, v⟩
    have hnd2 : (k :: dictKeys rest).Nodup := by
      simpa [dictKeys] using hnd
    have hk : k ∉ dictKeys rest := (List.nodup_cons.mp hnd2).1
    have hrest : (dictKeys rest).Nodup := (List.nodup_cons.mp hnd2).2
    have hhead : dictGet ((k, v) :: rest) k = some v := by simp [dictGet]
    have htail : (dictKeys rest).map
          (fun k2 => ((dictGet ((k, v) :: rest) k2).bind numericVal).getD 0)
        = (dictKeys rest).map
          (fun k2 => ((dictGet rest k2).bind numericVal).getD 0) := by
      apply List.map_congr_left
      intro k2 hk2
      have hne : ¬ k = k2 := fun e => hk (e ▸ hk2)
      simp [dictGet, hne]
    simp only [dictKeys] at htail
    simp only [dictKeys, List.map_cons, List.sum_cons] at ih ⊢
    rw [hhead]
    simp only [Option.some_bind]
    rw [htail, ih hrest]

theorem keys_perm_axisNames {s4 : List (String × JPrim)}
    (hnd : (dictKeys s4).Nodup)
    (hsub : ∀ k ∈ dictKeys s4, k ∈ axisNames)
    (hall : ∀ a ∈ axisNames, a ∈ dictKeys s4) :
    (dictKeys s4).Perm axisNames := by
  have h1 : (dictKeys s4).Subperm axisNames :=
    hnd.subperm (fun x hx => hsub x hx)
  have h2 : axisNames.Subperm (dictKeys s4) :=
    (by decide : axisNames.Nodup).subperm (fun x hx => hall x hx)
  exact h1.antisymm h2

theorem getScore_of_getScores {r : List (String × JVal)}
    {s : List (String × JPrim)} (h : getScores r = some s) (a : String) :
    getScore r a = (dictGet s a).bind numericVal := by
  simp [getScore, h]

theorem validateRemote_spec {reply r : List (String × JVal)}
    {s0 : List (String × JPrim)}
    (h : validateRemote reply = some r)
    (hs : dictGet reply "scores" = some (JVal.obj s0))
    (hnd : (dictKeys s0).Nodup)
    (hsub : ∀ k ∈ dictKeys s0, k ∈ axisNames) :
    (∀ a ∈ axisNames, ∃ q, getScore r a = some q ∧ 0 ≤ q ∧ q ≤ 25) ∧
    getTotal r
      = some ((axisNames.map (fun a => (getScore r a).getD 0)).sum) := by
  unfold validateRemote at h
  simp only [hs] at h
  cases hva : validateAxes s0 with
  | none => simp [hva] at h
  | some s4 =>
    simp only [hva] at h
    cases hsum : sumValues s4 with
    | none => simp [hsum] at h
    | some T =>
      simp only [hsum, Option.some.injEq] at h
      subst h
      have hscores : getScores (dictSet (dictSet reply "scores" (JVal.obj s4))
          "total_score" (JVal.prim (JPrim.num T))) = some s4 := by
        unfold getScores
        rw [dictGet_dictSet_ne _ "total_score" "scores" _ (by decide),
          dictGet_dictSet_self]
      have htotal : getTotal (dictSet (dictSet reply "scores" (JVal.obj s4))
          "total_score" (JVal.prim (JPrim.num T))) = some T := by
        unfold getTotal
        rw [dictGet_dictSet_self]
      have hbounds := validateAxes_axis_bounds hva
      constructor
      · intro a ha
        obtain ⟨p, hp, q, hq, h0, h25⟩ := hbounds a ha
        refine ⟨q, ?_, h0, h25⟩
        rw [getScore_of_getScores hscores, hp]
        simpa using hq
      · have hperm : (dictKeys s4).Perm axisNames :=
          keys_perm_axisNames (validateAxes_nodup hva hnd)
            (validateAxes_keys_subset hva hsub)
            (fun a ha => mem_dictKeys_of_dictGet (hbounds a ha).choose_spec.1)
        have hmap : axisNames.map (fun a =>
              (getScore (dictSet (dictSet reply "scores" (JVal.obj s4))
                "total_score" (JVal.prim (JPrim.num T))) a).getD 0)
            = axisNames.map (fun a =>
              ((dictGet s4 a).bind numericVal).getD 0) := by
          apply List.map_congr_left
          intro a _
          rw [getScore_of_getScores hscores]
        rw [htotal, hmap, ← (hperm.map _).sum_eq,
          ← entries_sum_eq_keys_sum (validateAxes_nodup hva hnd),
          ← sumValues_eq hsum]

theorem validateRemote_inv {reply r : List (String × JVal)}
    (h : validateRemote reply = some r) :
    ∃ s0 s4 T, dictGet reply "scores" = some (JVal.obj s0) ∧
      validateAxes s0 = some s4 ∧ sumValues s4 = some T ∧
      r = dictSet (dictSet reply "scores" (JVal.obj s4)) "total_score"
            (JVal.prim (JPrim.num T)) := by
  unfold validateRemote at h
  cases hg : dictGet reply "scores" with
  | none => simp [hg] at h
  | some w =>
    cases w with
    | prim p => simp [hg] at h
    | obj s0 =>
      simp only [hg] at h
      cases hva : validateAxes s0 with
      | none => simp [hva] at h
      | some s4 =>
        simp only [hva] at h
        cases hsum : sumValues s4 with
        | none => simp [hsum] at h
        | some T =>
          simp only [hsum, Option.some.injEq] at h
          exact ⟨s0, s4, T, rfl, hva, hsum, h.symm⟩

/-- The axis bounds of a validated remote result hold with no condition
on the reply: the validation loop always defaults or clamps the four axis
entries, whatever other keys the scores object carries. -/
theorem validateRemote_bounds {reply r : List (String × JVal)}
    (h : validateRemote reply = some r) :
    ∀ a ∈ axisNames, ∃ q, getScore r a = some q ∧ 0 ≤ q ∧ q ≤ 25 := by
  obtain ⟨s0, s4, T, hs, hva, hsum, rfl⟩ := validateRemote_inv h
  have hscores : getScores (dictSet (dictSet reply "scores" (JVal.obj s4))
      "total_score" (JVal.prim (JPrim.num T))) = some s4 := by
    unfold getScores
    rw [dictGet_dictSet_ne _ "total_score" "scores" _ (by decide),
      dictGet_dictSet_self]
  intro a ha
  obtain ⟨p, hp, q, hq, h0, h25⟩ := validateAxes_axis_bounds hva a ha
  refine ⟨q, ?_, h0, h25⟩
  rw [getScore_of_getScores hscores, hp]
  simpa using hq

theorem fallback_scores_bounds (content description : String) :
    (∀ a ∈ axisNames, ∃ q,
      getScore (fallback_analysis content description) a = some q
        ∧ 0 ≤ q ∧ q ≤ 25) ∧
    getTotal (fallback_analysis content description)
      = some ((axisNames.map (fun a =>
          (getScore (fallback_analysis content description) a).getD 0)).sum)
    := by
  have hbound : ∀ kws : List String,
      0 ≤ pyMin ((totalCount kws (combinedText content description) : ℚ)
          * (5 / 2)) 25 ∧
      pyMin ((totalCount kws (combinedText content description) : ℚ)
          * (5 / 2)) 25 ≤ 25 := by
    intro kws
    exact ⟨pyMin_nonneg (by positivity) (by norm_num), pyMin_le_right _ _⟩
  have h1 := getScore_fallback content description "numerisation"
    ["ocr", "document", "scan", "digitization", "digitisation", "pdf",
     "paper", "archive", "capture", "recognition"] (by simp [keywordsMapping])
  have h2 := getScore_fallback content description "extraction"
    ["data extraction", "data mining", "analytics", "intelligence", "etl",
     "data processing", "information extraction", "nlp", "text mining"]
    (by simp [keywordsMapping])
  have h3 := getScore_fallback content description "certification"
    ["certification", "trust", "blockchain", "security", "authentication",
     "verification", "compliance", "audit", "identity"]
    (by simp [keywordsMapping])
  have h4 := getScore_fallback content description "mise_disposition"
    ["dashboard", "portal", "api", "collaboration", "sharing", "access",
     "interface", "platform", "workspace"] (by simp [keywordsMapping])
  constructor
  · intro a ha
    simp only [axisNames, List.mem_cons, List.not_mem_nil, or_false] at ha
    rcases ha with rfl | rfl | rfl | rfl
    · rw [h1]; exact ⟨_, rfl, hbound _⟩
    · rw [h2]; exact ⟨_, rfl, hbound _⟩
    · rw [h3]; exact ⟨_, rfl, hbound _⟩
    · rw [h4]; exact ⟨_, rfl, hbound _⟩
  · have hts : getTotal (fallback_analysis content description)
        = some (((fallbackScores
            (combinedText content description)).1.map Prod.snd).sum) := by
      simp [getTotal, fallback_analysis, dictGet]
    rw [hts, fallbackScores_fst]
    simp only [axisNames, List.map_cons, List.map_nil, List.sum_cons,
      List.sum_nil, h1, h2, h3, h4, Option.getD_some, keywordsMapping]

/-! C3: axis score bounds and the locally recomputed total. -/

/-- C3 counterexample: the claim as stated fails. For the remote reply
whose scores object is
`{"numerisation": 10, "bogus": 999}`, the validated result has the four
axis scores 10, 0, 0, 0 (sum 10) — each in `[0, 25]` — yet its
`total_score` is 1009: the locally recomputed sum ranges over all entries
of the scores dict, so the extra key both escapes the clamp and enters
the total, which therefore differs from the sum of the four axis
scores. -/
theorem C3_counterexample :
    getTotal (analyze_startup_relevance true (some extraKeyReply) "" "" "")
      = some 1009 ∧
    (axisNames.map (fun a =>
        (getScore (analyze_startup_relevance true (some extraKeyReply)
          "" "" "") a).getD 0)).sum = 10 ∧
    (1009 : ℚ) ≠ 10 := by
  refine ⟨?_, ?_, by norm_num⟩
  · simp [analyze_startup_relevance, validateRemote, extraKeyReply,
      validateAxes, axisNames, validateAxis, dictGet, dictSet, clampAxisVal,
      sumValues, numericVal, pyMin, pyMax, getTotal]
    norm_num
  · simp [analyze_startup_relevance, validateRemote, extraKeyReply,
      validateAxes, axisNames, validateAxis, dictGet, dictSet, clampAxisVal,
      sumValues, numericVal, pyMin, pyMax, getScore, getScores]
    norm_num

/-- C3 amended: every result of the scorer — remote path with any remote
reply, or keyword fallback — unconditionally has each of the four axis
scores present and in `[0, 25]` (missing keys default to 0, out-of-range
numbers are clamped), and its `total_score` is recomputed locally; the
total equals the sum of the four axis scores whenever the scores object
of the remote reply has no duplicate keys and no keys beyond the four
axes (the counterexample shows an extra key breaks exactly this total
equation, while the bounds still hold there). -/
theorem C3_amended_bounds_and_total (enabled : Bool)
    (remote : Option (List (String × JVal)))
    (content description name : String) :
    (∀ a ∈ axisNames, ∃ q,
      getScore (analyze_startup_relevance enabled remote content description
        name) a = some q ∧ 0 ≤ q ∧ q ≤ 25) ∧
    ((∀ reply s0, remote = some reply →
        dictGet reply "scores" = some (JVal.obj s0) →
        (dictKeys s0).Nodup ∧ ∀ k ∈ dictKeys s0, k ∈ axisNames) →
      getTotal (analyze_startup_relevance enabled remote content description
          name)
        = some ((axisNames.map (fun a =>
            (getScore (analyze_startup_relevance enabled remote content
              description name) a).getD 0)).sum)) := by
  by_cases he : enabled = false
  · simp only [analyze_startup_relevance, he, if_pos rfl]
    exact ⟨(fallback_scores_bounds content description).1,
      fun _ => (fallback_scores_bounds content description).2⟩
  · cases hr : remote with
    | none =>
      simp only [analyze_startup_relevance, he, if_neg he]
      exact ⟨(fallback_scores_bounds content description).1,
        fun _ => (fallback_scores_bounds content description).2⟩
    | some reply =>
      cases hv : validateRemote reply with
      | none =>
        simp only [analyze_startup_relevance, he, if_neg he, hv]
        exact ⟨(fallback_scores_bounds content description).1,
          fun _ => (fallback_scores_bounds content description).2⟩
      | some r =>
        simp only [analyze_startup_relevance, he, if_neg he, hv]
        refine ⟨validateRemote_bounds hv, fun hkeys => ?_⟩
        obtain ⟨s0, s4, T, hs, hva, hsum, heq⟩ := validateRemote_inv hv
        obtain ⟨hnd, hsub⟩ := hkeys reply s0 rfl hs
        exact (validateRemote_spec hv hs hnd hsub).2

/-- Witness for the amended C3 on the remote path: a reply whose scores
object carries an oversized and a negative axis value and a bogus
total_score; its key condition is discharged with the actual reply, not
vacuously. -/
theorem C3_amended_bounds_and_total_witness :
    (∀ reply s0,
      (some clampedKeysReply : Option (List (String × JVal))) = some reply →
      dictGet reply "scores" = some (JVal.obj s0) →
      (dictKeys s0).Nodup ∧ ∀ k ∈ dictKeys s0, k ∈ axisNames) ∧
    getTotal (analyze_startup_relevance true (some clampedKeysReply)
        "txt" "desc" "X")
      = some ((axisNames.map (fun a =>
          (getScore (analyze_startup_relevance true (some clampedKeysReply)
            "txt" "desc" "X") a).getD 0)).sum) := by
  have hk : ∀ reply s0,
      (some clampedKeysReply : Option (List (String × JVal))) = some reply →
      dictGet reply "scores" = some (JVal.obj s0) →
      (dictKeys s0).Nodup ∧ ∀ k ∈ dictKeys s0, k ∈ axisNames := by
    intro reply s0 h hs
    cases h
    have h2 : dictGet clampedKeysReply "scores"
        = some (JVal.obj [("numerisation", JPrim.num 30),
            ("extraction", JPrim.num (-5))]) := rfl
    rw [h2] at hs
    have h3 : JVal.obj [("numerisation", JPrim.num 30),
        ("extraction", JPrim.num (-5))] = JVal.obj s0 := Option.some.inj hs
    injection h3 with h4
    subst h4
    exact ⟨by decide, by decide⟩
  exact ⟨hk, (C3_amended_bounds_and_total true (some clampedKeysReply)
    "txt" "desc" "X").2 hk⟩

end Viva
